import Mathlib

/-!
Verification of the dental-chart input parsers of src/app.py.

Strings are modelled as lists of ASCII characters.  Python string
operations used by the source (strip, split, isdigit, isspace, int)
are embedded faithfully for ASCII input; diagnostics printed by the
source are modelled as structured values in emission order.
-/

/-- One Python string, as a list of characters. -/
abbrev Str := List Char

/-- ASCII whitespace, as recognized by Python str.strip and str.isspace. -/
def isPySpace (c : Char) : Bool :=
  c == ' ' || c == '\t' || c == '\n' || c == '\r' || c == '\x0b' || c == '\x0c'

/-- Python str.lstrip for whitespace. -/
def pyStripLeft : Str → Str
  | [] => []
  | c :: cs => if isPySpace c then pyStripLeft cs else c :: cs

/-- Python str.strip: drop whitespace from both ends. -/
def pyStrip (s : Str) : Str :=
  pyStripLeft ((pyStripLeft s.reverse).reverse)

/-- Python str.isspace: nonempty and all whitespace. -/
def pyIsSpace (s : Str) : Bool :=
  !s.isEmpty && s.all isPySpace

/-- Split at every character satisfying p, keeping empty pieces
(the semantics of Python str.split(sep) for a one-character sep). -/
def splitOnPred (p : Char → Bool) : Str → List Str
  | [] => [[]]
  | c :: cs =>
    if p c then [] :: splitOnPred p cs
    else (c :: (splitOnPred p cs).headI) :: (splitOnPred p cs).tail

/-- Python s.split(sep) for a single-character separator. -/
def splitOnChar (sep : Char) (s : Str) : List Str :=
  splitOnPred (fun c => c == sep) s

/-- Python s.split() with no argument: split on whitespace runs,
discarding empty pieces. -/
def pySplitWs (s : Str) : List Str :=
  (splitOnPred isPySpace s).filter (fun w => !w.isEmpty)

/-- Numeric value of one ASCII digit. -/
def digitVal (c : Char) : Nat := c.toNat - '0'.toNat

/-- Value of an all-digit string (what Python int() returns on it). -/
def digitsVal (s : Str) : Nat := s.foldl (fun a c => a * 10 + digitVal c) 0

/-- Decimal rendering of a natural number, Python str(n). -/
def natToStr (n : Nat) : Str := Nat.toDigits 10 n

/-- Digit part of Python int() parsing: digits with single underscores
allowed between digits.  The Bool argument records whether the previous
character was a digit. -/
def pyNatDigits : Str → Nat → Bool → Option Nat
  | [], acc, lastDigit => if lastDigit then some acc else none
  | c :: cs, acc, lastDigit =>
    if c.isDigit then pyNatDigits cs (acc * 10 + digitVal c) true
    else if c == '_' && lastDigit then pyNatDigits cs acc false
    else none

/-- Python int(s) for base 10 over ASCII input: surrounding whitespace
stripped, optional sign, digits (with underscore separators).
Returns none where int() raises ValueError. -/
def pyInt (s : Str) : Option Int :=
  match pyStrip s with
  | '+' :: rest => (pyNatDigits rest 0 false).map (fun n => (n : Int))
  | '-' :: rest => (pyNatDigits rest 0 false).map (fun n => -(n : Int))
  | rest => (pyNatDigits rest 0 false).map (fun n => (n : Int))

/-- Jaw context: the source passes the strings "maxillary" / "mandibular"
or None; the spec calls None Unconstrained. -/
inductive Jaw
  | maxillary
  | mandibular
  deriving DecidableEq, Repr

/-- Diagnostics printed by the source, as structured values carrying the
data interpolated into each message. -/
inductive Diag
  | rangeErr (t : Int)
  | jawMaxErr (t : Int)
  | jawMandErr (t : Int)
  | recoveryInfo (orig : Str) (teeth : List Nat)
  | invalidInput (text : Str)
  | bridgeRangeErr (s e : Int)
  | bridgeCrossJawErr (s e : Int)
  | bridgeJawMaxErr (s e : Int)
  | bridgeJawMandErr (s e : Int)
  | bridgesDetected (bs : List (Int × Int))
  | invalidBridgeInput (text : Str)
  deriving DecidableEq, Repr

/-- Whether the recovery heuristic of parse_teeth_numbers is attempted:
source condition len(text.strip()) over 2, no comma in text, stripped text
not all whitespace, stripped text all digits (app.py lines 50-52). -/
def fireCond (text : Str) : Bool :=
  decide (2 < (pyStrip text).length) && !(decide (',' ∈ text)) &&
    !(pyIsSpace (pyStrip text)) && (pyStrip text).all Char.isDigit

/-- The greedy left-to-right scan of app.py lines 56-65.  Returns the
final (possible_teeth, current_num) pair; the abandon branch (more than
two accumulated digits without a valid tooth) clears possible_teeth and
stops with the oversized accumulator. -/
def greedyScan : Str → Str → List Nat → (List Nat × Str)
  | [], cur, acc => (acc, cur)
  | c :: cs, cur, acc =>
    if 1 ≤ digitsVal (cur ++ [c]) ∧ digitsVal (cur ++ [c]) ≤ 32 then
      greedyScan cs [] (acc ++ [digitsVal (cur ++ [c])])
    else if 2 < (cur ++ [c]).length then
      ([], cur ++ [c])
    else
      greedyScan cs (cur ++ [c]) acc

/-- Teeth recovered by the heuristic, if it fires and succeeds
(app.py line 68: nonempty result and empty leftover accumulator). -/
def recoveredTeeth (text : Str) : Option (List Nat) :=
  if fireCond text then
    if (greedyScan (pyStrip text) [] []).1 ≠ [] ∧ (greedyScan (pyStrip text) [] []).2 = [] then
      some (greedyScan (pyStrip text) [] []).1
    else none
  else none

/-- Python ",".join of a list of strings. -/
def joinComma : List Str → Str
  | [] => []
  | [c] => c
  | c :: cs => c ++ ',' :: joinComma cs

/-- The comma-joined reconstruction of recovered teeth (app.py line 70). -/
def reconstruct (ts : List Nat) : Str := joinComma (ts.map natToStr)

/-- The comma-split validation loop of app.py lines 74-99: returns none
on the ValueError path (a nonempty segment that int() rejects). -/
def teethLoop (jaw : Option Jaw) : List Str → List Int → List Diag →
    Option (List Int × List Diag)
  | [], res, errs => some (res, errs)
  | seg :: rest, res, errs =>
    if pyStrip seg = [] then teethLoop jaw rest res errs
    else
      match pyInt (pyStrip seg) with
      | none => none
      | some t =>
        if ¬ (1 ≤ t ∧ t ≤ 32) then
          teethLoop jaw rest res (errs ++ [Diag.rangeErr t])
        else if jaw = some Jaw.maxillary ∧ ¬ (1 ≤ t ∧ t ≤ 16) then
          teethLoop jaw rest res (errs ++ [Diag.jawMaxErr t])
        else if jaw = some Jaw.mandibular ∧ ¬ (17 ≤ t ∧ t ≤ 32) then
          teethLoop jaw rest res (errs ++ [Diag.jawMandErr t])
        else
          teethLoop jaw rest (res ++ [t]) errs

/-- The try-block of parse_teeth_numbers on a given text: the loop,
with the ValueError handler of lines 102-104. -/
def parsePlain (text : Str) (jaw : Option Jaw) : List Int × List Diag :=
  match teethLoop jaw (splitOnChar ',' text) [] [] with
  | some (res, errs) => (res, errs)
  | none => ([], [Diag.invalidInput text])

/-- parse_teeth_numbers of app.py lines 36-104. -/
def parse_teeth_numbers (text : Str) (jaw : Option Jaw) : List Int × List Diag :=
  if pyStrip text = [] then ([], [])
  else
    match recoveredTeeth text with
    | some ts =>
      ((parsePlain (reconstruct ts) jaw).1,
        Diag.recoveryInfo text ts :: (parsePlain (reconstruct ts) jaw).2)
    | none => parsePlain text jaw

/-- Outcome of the pair-extraction part of one parse_bridges loop
iteration (app.py lines 127-153). -/
inductive ExtractResult
  | fail
  | nopair
  | pair (s e : Int)
  | special (s e : Int)
  deriving DecidableEq, Repr

/-- Extraction of a candidate pair from one nonempty stripped segment p
of the bridge field text: hyphen format, two-token whitespace format,
or the whole-field two-bare-number special case; fail is the ValueError
path (int() rejection, or a hyphen split into more than two parts). -/
def extractPair (text p : Str) : ExtractResult :=
  if '-' ∈ p then
    match splitOnChar '-' p with
    | [a, b] =>
      match pyInt (pyStrip a), pyInt (pyStrip b) with
      | some s, some e => ExtractResult.pair s e
      | _, _ => ExtractResult.fail
    | _ => ExtractResult.fail
  else if ' ' ∈ p then
    match pySplitWs p with
    | [a, b] =>
      match pyInt (pyStrip a), pyInt (pyStrip b) with
      | some s, some e => ExtractResult.pair s e
      | _, _ => ExtractResult.fail
    | _ => ExtractResult.nopair
  else if ',' ∈ text ∧ (splitOnChar ',' text).length = 2 ∧ ',' ∉ p then
    match (splitOnChar ',' text).map pyStrip with
    | [a, b] =>
      if a ≠ [] ∧ a.all Char.isDigit ∧ b ≠ [] ∧ b.all Char.isDigit then
        ExtractResult.special (digitsVal a) (digitsVal b)
      else ExtractResult.nopair
    | _ => ExtractResult.nopair
  else ExtractResult.nopair

/-- The validation of an extracted pair, app.py lines 158-174: first
failing check yields its diagnostic, none means the pair is accepted. -/
def validatePair (jaw : Option Jaw) (s e : Int) : Option Diag :=
  if ¬ (1 ≤ s ∧ s ≤ 32 ∧ 1 ≤ e ∧ e ≤ 32) then
    some (Diag.bridgeRangeErr s e)
  else if (1 ≤ s ∧ s ≤ 16 ∧ ¬ (1 ≤ e ∧ e ≤ 16)) ∨
      (17 ≤ s ∧ s ≤ 32 ∧ ¬ (17 ≤ e ∧ e ≤ 32)) then
    some (Diag.bridgeCrossJawErr s e)
  else if jaw = some Jaw.maxillary ∧ ¬ (1 ≤ s ∧ s ≤ 16 ∧ 1 ≤ e ∧ e ≤ 16) then
    some (Diag.bridgeJawMaxErr s e)
  else if jaw = some Jaw.mandibular ∧ ¬ (17 ≤ s ∧ s ≤ 32 ∧ 17 ≤ e ∧ e ≤ 32) then
    some (Diag.bridgeJawMandErr s e)
  else none

/-- The segment loop of parse_bridges, app.py lines 120-176.  The special
case replaces the accumulated bridges and breaks out of the loop before
any validation; a pair with a zero endpoint fails the Python truthiness
test of line 156 and is skipped silently; none is the ValueError path. -/
def bridgeLoop (text : Str) (jaw : Option Jaw) : List Str →
    List (Int × Int) → List Diag → Option (List (Int × Int) × List Diag)
  | [], bs, errs => some (bs, errs)
  | seg :: rest, bs, errs =>
    if pyStrip seg = [] then bridgeLoop text jaw rest bs errs
    else
      match extractPair text (pyStrip seg) with
      | ExtractResult.fail => none
      | ExtractResult.nopair => bridgeLoop text jaw rest bs errs
      | ExtractResult.special s e => some ([(s, e)], errs)
      | ExtractResult.pair s e =>
        if s ≠ 0 ∧ e ≠ 0 then
          match validatePair jaw s e with
          | some d => bridgeLoop text jaw rest bs (errs ++ [d])
          | none => bridgeLoop text jaw rest (bs ++ [(s, e)]) errs
        else bridgeLoop text jaw rest bs errs

/-- parse_bridges of app.py lines 107-192. -/
def parse_bridges (text : Str) (jaw : Option Jaw) : List (Int × Int) × List Diag :=
  if pyStrip text = [] then ([], [])
  else
    match bridgeLoop text jaw (splitOnChar ',' text) [] [] with
    | some (bs, errs) =>
      (bs, errs ++ (if bs = [] then [] else [Diag.bridgesDetected bs]))
    | none => ([], [Diag.invalidBridgeInput text])

/-- One jaw of the dental_modifications structure built by
draw_dental_chart, app.py lines 202-221: six sets and a bridge list. -/
structure JawMarks where
  missing : Finset Int
  implant : Finset Int
  extracted : Finset Int
  crown : Finset Int
  rct : Finset Int
  filling : Finset Int
  bridges : List (Int × Int)

/-- The raw per-jaw field strings supplied by the form. -/
structure RawJawFields where
  missing : Str
  implant : Str
  extracted : Str
  crown : Str
  rct : Str
  filling : Str
  bridge : Str

/-- Parse one jaw's raw fields with its jaw context (as in
on_generate_button_clicked, app.py lines 342-356) and build that jaw's
entry of dental_modifications (set(...) on each tooth list, bridges
passed through). -/
def buildJawMarks (j : Jaw) (f : RawJawFields) : JawMarks :=
  { missing := ((parse_teeth_numbers f.missing (some j)).1).toFinset
  , implant := ((parse_teeth_numbers f.implant (some j)).1).toFinset
  , extracted := ((parse_teeth_numbers f.extracted (some j)).1).toFinset
  , crown := ((parse_teeth_numbers f.crown (some j)).1).toFinset
  , rct := ((parse_teeth_numbers f.rct (some j)).1).toFinset
  , filling := ((parse_teeth_numbers f.filling (some j)).1).toFinset
  , bridges := (parse_bridges f.bridge (some j)).1 }

/-- The full two-jaw chart structure. -/
structure DentalChart where
  maxillary : JawMarks
  mandibular : JawMarks

/-- The full dental_modifications structure assembled from raw fields
parsed with their matching jaw contexts. -/
def dental_modifications (maxF mandF : RawJawFields) : DentalChart :=
  { maxillary := buildJawMarks Jaw.maxillary maxF
  , mandibular := buildJawMarks Jaw.mandibular mandF }

/-- The six per-tooth condition sets of one jaw, in field order. -/
def condSets (m : JawMarks) : List (Finset Int) :=
  [m.missing, m.implant, m.extracted, m.crown, m.rct, m.filling]

/-- The six per-tooth condition field strings, in field order. -/
def condFields (f : RawJawFields) : List Str :=
  [f.missing, f.implant, f.extracted, f.crown, f.rct, f.filling]

/-- Jaw-membership requirement on a parsed tooth for a given context. -/
@[reducible] def jawOkN (jaw : Option Jaw) (t : Nat) : Prop :=
  match jaw with
  | none => True
  | some Jaw.maxillary => t ≤ 16
  | some Jaw.mandibular => 17 ≤ t

/-- Jaw-context requirement on a bridge pair. -/
@[reducible] def jawPairOk (jaw : Option Jaw) (s e : Int) : Prop :=
  match jaw with
  | none => True
  | some Jaw.maxillary => 1 ≤ s ∧ s ≤ 16 ∧ 1 ≤ e ∧ e ≤ 16
  | some Jaw.mandibular => 17 ≤ s ∧ s ≤ 32 ∧ 17 ≤ e ∧ e ≤ 32

/-- The text actually fed to the comma-split loop: the reconstruction
when recovery succeeded, the original otherwise. -/
def effectiveText (text : Str) : Str :=
  match recoveredTeeth text with
  | some ts => reconstruct ts
  | none => text

/-! ### Basic lemmas about the string primitives -/

lemma mem_pyStripLeft {c : Char} : ∀ {s : Str}, c ∈ pyStripLeft s → c ∈ s := by
  intro s
  induction s with
  | nil => simp [pyStripLeft]
  | cons a as ih =>
    intro h
    cases ha : isPySpace a with
    | true =>
      rw [pyStripLeft, if_pos ha] at h
      exact List.mem_cons_of_mem _ (ih h)
    | false =>
      rw [pyStripLeft, if_neg (by simp [ha])] at h
      exact h

lemma mem_pyStrip {c : Char} {s : Str} (h : c ∈ pyStrip s) : c ∈ s := by
  unfold pyStrip at h
  have h1 := mem_pyStripLeft h
  rw [List.mem_reverse] at h1
  have h2 := mem_pyStripLeft h1
  rwa [List.mem_reverse] at h2

lemma mem_pyStripLeft_of_not_space {c : Char} (hc : isPySpace c = false) :
    ∀ {s : Str}, c ∈ s → c ∈ pyStripLeft s := by
  intro s
  induction s with
  | nil => simp
  | cons a as ih =>
    intro h
    cases ha : isPySpace a with
    | true =>
      rw [pyStripLeft, if_pos ha]
      rcases List.mem_cons.mp h with rfl | h
      · rw [ha] at hc; cases hc
      · exact ih h
    | false =>
      rw [pyStripLeft, if_neg (by simp [ha])]
      exact h

lemma mem_pyStrip_of_not_space {c : Char} (hc : isPySpace c = false)
    {s : Str} (h : c ∈ s) : c ∈ pyStrip s := by
  unfold pyStrip
  apply mem_pyStripLeft_of_not_space hc
  rw [List.mem_reverse]
  apply mem_pyStripLeft_of_not_space hc
  rwa [List.mem_reverse]

lemma pyStrip_eq_nil_space {s : Str} (h : pyStrip s = []) :
    ∀ c ∈ s, isPySpace c = true := by
  intro c hc
  by_contra hns
  have hmem := mem_pyStrip_of_not_space (by simpa using hns) hc
  rw [h] at hmem
  exact absurd hmem (List.not_mem_nil c)

lemma splitOnPred_ne_nil (p : Char → Bool) : ∀ s, splitOnPred p s ≠ [] := by
  intro s
  cases s with
  | nil => simp [splitOnPred]
  | cons a as =>
    simp only [splitOnPred]
    split <;> simp

lemma mem_of_mem_splitOnPred {p : Char → Bool} {c : Char} :
    ∀ {s seg : Str}, seg ∈ splitOnPred p s → c ∈ seg → c ∈ s := by
  intro s
  induction s with
  | nil =>
    intro seg h hc
    simp [splitOnPred] at h
    subst h
    simp at hc
  | cons a as ih =>
    intro seg h hc
    rcases hs : splitOnPred p as with _ | ⟨r, rs⟩
    · exact absurd hs (splitOnPred_ne_nil p as)
    · by_cases hp : p a = true
      · simp only [splitOnPred, hs, if_pos hp] at h
        rcases List.mem_cons.mp h with rfl | h2
        · simp at hc
        · exact List.mem_cons_of_mem _ (ih (hs.symm ▸ h2) hc)
      · simp only [splitOnPred, hs, if_neg hp, List.headI, List.tail_cons] at h
        rcases List.mem_cons.mp h with rfl | h2
        · rcases List.mem_cons.mp hc with rfl | hc2
          · exact List.mem_cons_self _ _
          · exact List.mem_cons_of_mem _
              (ih (hs.symm ▸ List.mem_cons_self r rs) hc2)
        · exact List.mem_cons_of_mem _
            (ih (hs.symm ▸ List.mem_cons_of_mem r h2) hc)

lemma splitOnPred_all_false {p : Char → Bool} :
    ∀ {s : Str}, (∀ c ∈ s, p c = false) → splitOnPred p s = [s] := by
  intro s
  induction s with
  | nil => intro _; rfl
  | cons a as ih =>
    intro h
    have has : splitOnPred p as = [as] := ih (fun c hc => h c (List.mem_cons_of_mem _ hc))
    have ha := h a (List.mem_cons_self a as)
    simp [splitOnPred, has, ha]

lemma splitOnChar_of_not_mem {s : Str} (h : ',' ∉ s) :
    splitOnChar ',' s = [s] := by
  apply splitOnPred_all_false
  intro c hc
  simp only [beq_eq_false_iff_ne, ne_eq]
  intro hceq
  exact h (hceq ▸ hc)

lemma splitOnChar_append_cons {chunk rest : Str} (h : ',' ∉ chunk) :
    splitOnChar ',' (chunk ++ ',' :: rest) = chunk :: splitOnChar ',' rest := by
  induction chunk with
  | nil => simp [splitOnChar, splitOnPred]
  | cons a chunk ih =>
    have ha : (a == ',') = false := by
      simp only [beq_eq_false_iff_ne, ne_eq]
      intro hceq
      exact h (hceq ▸ List.mem_cons_self a chunk)
    have ih2 := ih (fun hm => h (List.mem_cons_of_mem a hm))
    simp only [splitOnChar] at ih2 ⊢
    simp only [List.cons_append, splitOnPred, ha, ih2]
    simp [ih2]

lemma splitOnChar_joinComma :
    ∀ {chunks : List Str}, chunks ≠ [] → (∀ ch ∈ chunks, ',' ∉ ch) →
      splitOnChar ',' (joinComma chunks) = chunks := by
  intro chunks
  induction chunks with
  | nil => intro h _; exact absurd rfl h
  | cons c cs ih =>
    intro _ hfree
    cases cs with
    | nil =>
      show splitOnChar ',' (joinComma [c]) = [c]
      rw [joinComma]
      exact splitOnChar_of_not_mem (hfree c (List.mem_cons_self c []))
    | cons c2 cs2 =>
      have hjc : joinComma (c :: c2 :: cs2) = c ++ ',' :: joinComma (c2 :: cs2) := rfl
      rw [hjc, splitOnChar_append_cons (hfree c (List.mem_cons_self _ _)),
        ih (by simp) (fun ch hch => hfree ch (List.mem_cons_of_mem _ hch))]

lemma space_not_digit {c : Char} (h : isPySpace c = true) : c.isDigit = false := by
  simp only [isPySpace, Bool.or_eq_true, beq_iff_eq] at h
  rcases h with ((((rfl | rfl) | rfl) | rfl) | rfl) | rfl <;> rfl

lemma comma_mem_pyStrip {s : Str} : ',' ∈ s ↔ ',' ∈ pyStrip s := by
  constructor
  · exact fun h => mem_pyStrip_of_not_space (by rfl) h
  · exact mem_pyStrip

/-! ### Lemmas about canonical decimal strings of teeth -/

lemma digits32 : ∀ t : Nat, t < 33 → 1 ≤ t →
    pyInt (natToStr t) = some (t : Int) ∧ natToStr t ≠ [] ∧
    (natToStr t).all Char.isDigit = true ∧ (natToStr t).length ≤ 2 ∧
    ',' ∉ natToStr t ∧ pyStrip (natToStr t) = natToStr t := by decide

/-! ### Lemmas about fireCond / recoveredTeeth / reconstruct -/

lemma fireCond_false_of_comma {text : Str} (h : ',' ∈ text) :
    fireCond text = false := by
  simp [fireCond, h]

lemma fireCond_false_of_short {text : Str} (h : ¬ 2 < (pyStrip text).length) :
    fireCond text = false := by
  simp [fireCond, h]

lemma recoveredTeeth_none_of_false {text : Str} (h : fireCond text = false) :
    recoveredTeeth text = none := by
  simp [recoveredTeeth, h]

lemma greedyScan_range : ∀ (s cur : Str) (acc : List Nat),
    (∀ t ∈ acc, 1 ≤ t ∧ t ≤ 32) →
    ∀ t ∈ (greedyScan s cur acc).1, 1 ≤ t ∧ t ≤ 32 := by
  intro s
  induction s with
  | nil =>
    intro cur acc h t ht
    rw [greedyScan] at ht
    exact h t ht
  | cons c cs ih =>
    intro cur acc h t ht
    rw [greedyScan] at ht
    split_ifs at ht with h1 h2
    · refine ih _ _ ?_ t ht
      intro x hx
      rcases List.mem_append.mp hx with hx | hx
      · exact h x hx
      · have : x = digitsVal (cur ++ [c]) := by simpa using hx
        exact this ▸ h1
    · simp at ht
    · exact ih _ _ h t ht

lemma recoveredTeeth_spec {text : Str} {ts : List Nat}
    (h : recoveredTeeth text = some ts) :
    fireCond text = true ∧ ts ≠ [] ∧
    greedyScan (pyStrip text) [] [] = (ts, []) ∧
    ∀ t ∈ ts, 1 ≤ t ∧ t ≤ 32 := by
  cases hf : fireCond text with
  | false => rw [recoveredTeeth_none_of_false hf] at h; cases h
  | true =>
    rw [recoveredTeeth, if_pos hf] at h
    split_ifs at h with hcond
    rcases Option.some.inj h with rfl
    exact ⟨rfl, hcond.1, Prod.ext rfl hcond.2,
      greedyScan_range (pyStrip text) [] [] (by simp)⟩

lemma reconstruct_split {ts : List Nat} (hne : ts ≠ [])
    (hb : ∀ t ∈ ts, 1 ≤ t ∧ t ≤ 32) :
    splitOnChar ',' (reconstruct ts) = ts.map natToStr := by
  apply splitOnChar_joinComma
  · simpa using hne
  · intro ch hch
    rcases List.mem_map.mp hch with ⟨t, ht, rfl⟩
    have hbt := hb t ht
    exact (digits32 t (by omega) hbt.1).2.2.2.2.1

/-! ### Lemmas about the tooth-list loop and parse_teeth_numbers -/

lemma teethLoop_range {jaw : Option Jaw} :
    ∀ (segs : List Str) (res : List Int) (errs : List Diag)
      (out : List Int × List Diag),
      teethLoop jaw segs res errs = some out →
      (∀ t ∈ res, 1 ≤ t ∧ t ≤ 32 ∧ (jaw = some Jaw.maxillary → t ≤ 16) ∧
        (jaw = some Jaw.mandibular → 17 ≤ t)) →
      ∀ t ∈ out.1, 1 ≤ t ∧ t ≤ 32 ∧ (jaw = some Jaw.maxillary → t ≤ 16) ∧
        (jaw = some Jaw.mandibular → 17 ≤ t) := by
  intro segs
  induction segs with
  | nil =>
    intro res errs out h hres
    rw [teethLoop] at h
    rcases Option.some.inj h with rfl
    exact hres
  | cons seg rest ih =>
    intro res errs out h hres
    rw [teethLoop] at h
    by_cases hseg : pyStrip seg = []
    · rw [if_pos hseg] at h
      exact ih _ _ _ h hres
    · rw [if_neg hseg] at h
      cases hpi : pyInt (pyStrip seg) with
      | none =>
        simp only [hpi] at h
        exact Option.noConfusion h
      | some t =>
        simp only [hpi] at h
        by_cases h1 : ¬ (1 ≤ t ∧ t ≤ 32)
        · rw [if_pos h1] at h
          exact ih _ _ _ h hres
        · rw [if_neg h1] at h
          by_cases h2 : jaw = some Jaw.maxillary ∧ ¬ (1 ≤ t ∧ t ≤ 16)
          · rw [if_pos h2] at h
            exact ih _ _ _ h hres
          · rw [if_neg h2] at h
            by_cases h3 : jaw = some Jaw.mandibular ∧ ¬ (17 ≤ t ∧ t ≤ 32)
            · rw [if_pos h3] at h
              exact ih _ _ _ h hres
            · rw [if_neg h3] at h
              refine ih _ _ _ h ?_
              intro x hx
              rcases List.mem_append.mp hx with hx | hx
              · exact hres x hx
              · have hxt : x = t := by simpa using hx
                subst hxt
                push_neg at h1
                refine ⟨h1.1, h1.2, ?_, ?_⟩
                · intro hj
                  by_contra hx16
                  exact h2 ⟨hj, fun hc => hx16 hc.2⟩
                · intro hj
                  by_contra hx17
                  exact h3 ⟨hj, fun hc => hx17 hc.1⟩

lemma teethLoop_ok {jaw : Option Jaw} :
    ∀ (segs : List Str) (res : List Int) (errs : List Diag),
      (∀ seg ∈ segs, pyStrip seg = [] ∨
        ∃ t : Nat, t < 33 ∧ 1 ≤ t ∧ pyStrip seg = natToStr t ∧ jawOkN jaw t) →
      teethLoop jaw segs res errs =
        some (res ++ segs.filterMap (fun seg => pyInt (pyStrip seg)), errs) := by
  intro segs
  induction segs with
  | nil =>
    intro res errs _
    simp [teethLoop]
  | cons seg rest ih =>
    intro res errs hok
    have ihr := ih res errs (fun s hs => hok s (List.mem_cons_of_mem _ hs))
    rcases hok seg (List.mem_cons_self _ _) with hnil | ⟨t, ht33, ht1, hseg, hjaw⟩
    · have hnone : pyInt (pyStrip seg) = none := by rw [hnil]; rfl
      rw [teethLoop, if_pos hnil]
      simp only [List.filterMap_cons, hnone]
      exact ihr
    · have hd := digits32 t ht33 ht1
      have hsome : pyInt (pyStrip seg) = some (t : Int) := by rw [hseg]; exact hd.1
      have hne : pyStrip seg ≠ [] := by rw [hseg]; exact hd.2.1
      have hr1 : (1 : Int) ≤ (t : Int) := by exact_mod_cast ht1
      have hr32 : (t : Int) ≤ 32 := by
        have h32 : t ≤ 32 := by omega
        exact_mod_cast h32
      have ihapp := ih (res ++ [(t : Int)]) errs
        (fun s hs => hok s (List.mem_cons_of_mem _ hs))
      rw [teethLoop, if_neg hne]
      simp only [hsome]
      rw [if_neg (by push_neg; exact ⟨hr1, hr32⟩)]
      cases jaw with
      | none =>
        rw [if_neg (by rintro ⟨hj, _⟩; cases hj), if_neg (by rintro ⟨hj, _⟩; cases hj)]
        rw [ihapp]
        simp only [List.filterMap_cons, hsome]
        simp
      | some j =>
        cases j with
        | maxillary =>
          have ht16 : (t : Int) ≤ 16 := by
            have h16 : t ≤ 16 := hjaw
            exact_mod_cast h16
          rw [if_neg (by rintro ⟨_, hc⟩; exact hc ⟨hr1, ht16⟩),
            if_neg (by rintro ⟨hj, _⟩; cases hj)]
          rw [ihapp]
          simp only [List.filterMap_cons, hsome]
          simp
        | mandibular =>
          have ht17 : (17 : Int) ≤ (t : Int) := by
            have h17 : 17 ≤ t := hjaw
            exact_mod_cast h17
          rw [if_neg (by rintro ⟨hj, _⟩; cases hj),
            if_neg (by rintro ⟨_, hc⟩; exact hc ⟨ht17, hr32⟩)]
          rw [ihapp]
          simp only [List.filterMap_cons, hsome]
          simp

lemma teethLoop_fail (jaw : Option Jaw) :
    ∀ (segs : List Str) (res : List Int) (errs : List Diag),
      (∃ seg ∈ segs, pyStrip seg ≠ [] ∧ pyInt (pyStrip seg) = none) →
      teethLoop jaw segs res errs = none := by
  intro segs
  induction segs with
  | nil => rintro res errs ⟨seg, hseg, _⟩; simp at hseg
  | cons seg rest ih =>
    rintro res errs ⟨w, hw, hwne, hwnone⟩
    rw [teethLoop]
    rcases List.mem_cons.mp hw with rfl | hw2
    · rw [if_neg hwne]
      simp only [hwnone]
    · by_cases hseg : pyStrip seg = []
      · rw [if_pos hseg]
        exact ih _ _ ⟨w, hw2, hwne, hwnone⟩
      · rw [if_neg hseg]
        cases hpi : pyInt (pyStrip seg) with
        | none => simp only [hpi]
        | some t =>
          simp only [hpi]
          split_ifs <;> exact ih _ _ ⟨w, hw2, hwne, hwnone⟩

lemma parsePlain_mem {text : Str} {jaw : Option Jaw} {t : Int}
    (h : t ∈ (parsePlain text jaw).1) :
    1 ≤ t ∧ t ≤ 32 ∧ (jaw = some Jaw.maxillary → t ≤ 16) ∧
      (jaw = some Jaw.mandibular → 17 ≤ t) := by
  unfold parsePlain at h
  cases hl : teethLoop jaw (splitOnChar ',' text) [] [] with
  | none => simp only [hl] at h; simp at h
  | some out =>
    simp only [hl] at h
    exact teethLoop_range _ _ _ out hl (by simp) t h

lemma parse_teeth_mem {text : Str} {jaw : Option Jaw} {t : Int}
    (h : t ∈ (parse_teeth_numbers text jaw).1) :
    1 ≤ t ∧ t ≤ 32 ∧ (jaw = some Jaw.maxillary → t ≤ 16) ∧
      (jaw = some Jaw.mandibular → 17 ≤ t) := by
  unfold parse_teeth_numbers at h
  by_cases he : pyStrip text = []
  · rw [if_pos he] at h; simp at h
  · rw [if_neg he] at h
    cases hr : recoveredTeeth text with
    | none => simp only [hr] at h; exact parsePlain_mem h
    | some ts => simp only [hr] at h; exact parsePlain_mem h

lemma recoveredTeeth_reconstruct {ts : List Nat} (hne : ts ≠ [])
    (hb : ∀ t ∈ ts, 1 ≤ t ∧ t ≤ 32) :
    recoveredTeeth (reconstruct ts) = none := by
  rcases ts with _ | ⟨t1, ts2⟩
  · exact absurd rfl hne
  · rcases ts2 with _ | ⟨t2, ts3⟩
    · have hb1 := hb t1 (List.mem_cons_self _ _)
      have hd := digits32 t1 (by omega) hb1.1
      have hr : reconstruct [t1] = natToStr t1 := rfl
      apply recoveredTeeth_none_of_false
      apply fireCond_false_of_short
      rw [hr, hd.2.2.2.2.2]
      omega
    · apply recoveredTeeth_none_of_false
      apply fireCond_false_of_comma
      have : reconstruct (t1 :: t2 :: ts3) =
          natToStr t1 ++ ',' :: joinComma ((t2 :: ts3).map natToStr) := rfl
      rw [this]
      exact List.mem_append.mpr (Or.inr (List.mem_cons_self _ _))

lemma pyStrip_reconstruct_ne {ts : List Nat} (hne : ts ≠ [])
    (hb : ∀ t ∈ ts, 1 ≤ t ∧ t ≤ 32) :
    pyStrip (reconstruct ts) ≠ [] := by
  intro hnil
  have hsp := pyStrip_eq_nil_space hnil
  rcases ts with _ | ⟨t1, ts2⟩
  · exact absurd rfl hne
  · have hb1 := hb t1 (List.mem_cons_self _ _)
    have hd := digits32 t1 (by omega) hb1.1
    rcases List.exists_mem_of_ne_nil _ hd.2.1 with ⟨c, hc⟩
    have hcd : c.isDigit = true := by
      have := hd.2.2.1
      rw [List.all_eq_true] at this
      exact this c hc
    have hcmem : c ∈ reconstruct (t1 :: ts2) := by
      rcases ts2 with _ | ⟨t2, ts3⟩
      · exact hc
      · have : reconstruct (t1 :: t2 :: ts3) =
            natToStr t1 ++ ',' :: joinComma ((t2 :: ts3).map natToStr) := rfl
        rw [this]
        exact List.mem_append.mpr (Or.inl hc)
    have := space_not_digit (hsp c hcmem)
    rw [hcd] at this
    cases this

/-! ### Further lemmas about parse_teeth_numbers -/

lemma pyIsSpace_false_of_digits {s : Str} (hdig : s.all Char.isDigit = true) :
    pyIsSpace s = false := by
  cases s with
  | nil => rfl
  | cons c cs =>
    cases hsp : pyIsSpace (c :: cs) with
    | false => rfl
    | true =>
      exfalso
      have hc : isPySpace c = true := by
        simp only [pyIsSpace, List.isEmpty_cons, Bool.not_false, Bool.true_and,
          List.all_cons, Bool.and_eq_true] at hsp
        exact hsp.1
      have hcd : c.isDigit = true := by
        simp only [List.all_cons, Bool.and_eq_true] at hdig
        exact hdig.1
      have hnd := space_not_digit hc
      rw [hcd] at hnd
      cases hnd

lemma fireCond_iff (text : Str) :
    fireCond text = true ↔
      (2 < (pyStrip text).length ∧ ',' ∉ pyStrip text ∧
        (pyStrip text).all Char.isDigit = true) := by
  unfold fireCond
  simp only [Bool.and_eq_true, decide_eq_true_eq, Bool.not_eq_true',
    decide_eq_false_iff_not]
  constructor
  · rintro ⟨⟨⟨hlen, hcm⟩, _⟩, hdig⟩
    exact ⟨hlen, fun hmem => hcm (comma_mem_pyStrip.mpr hmem), hdig⟩
  · rintro ⟨hlen, hcm, hdig⟩
    exact ⟨⟨⟨hlen, fun hmem => hcm (comma_mem_pyStrip.mp hmem)⟩,
      pyIsSpace_false_of_digits hdig⟩, hdig⟩

lemma parse_no_recovery {text : Str} {jaw : Option Jaw}
    (hf : fireCond text = true)
    (hcur : (greedyScan (pyStrip text) [] []).2 ≠ []) :
    recoveredTeeth text = none ∧ splitOnChar ',' text = [text] ∧
      parse_teeth_numbers text jaw = parsePlain text jaw := by
  have hrec : recoveredTeeth text = none := by
    rw [recoveredTeeth, if_pos hf, if_neg (by rintro ⟨_, hc⟩; exact hcur hc)]
  have hcomma : ',' ∉ text := by
    intro hmem
    rw [fireCond_false_of_comma hmem] at hf
    cases hf
  have hne : pyStrip text ≠ [] := by
    intro h0
    have hl := ((fireCond_iff text).mp hf).1
    rw [h0] at hl
    simp at hl
  refine ⟨hrec, splitOnChar_of_not_mem hcomma, ?_⟩
  rw [parse_teeth_numbers, if_neg hne]
  simp only [hrec]

lemma parse_recovered_eq {text : Str} {ts : List Nat} {jaw : Option Jaw}
    (h : recoveredTeeth text = some ts) :
    parse_teeth_numbers text jaw =
      ((parsePlain (reconstruct ts) jaw).1,
        Diag.recoveryInfo text ts :: (parsePlain (reconstruct ts) jaw).2) := by
  have hspec := recoveredTeeth_spec h
  have hne : pyStrip text ≠ [] := by
    intro h0
    have hl := ((fireCond_iff text).mp hspec.1).1
    rw [h0] at hl
    simp at hl
  rw [parse_teeth_numbers, if_neg hne]
  simp only [h]

lemma parse_recovery_fixed {text : Str} {jaw : Option Jaw} {ts : List Nat}
    (h : recoveredTeeth text = some ts) :
    (parse_teeth_numbers (reconstruct ts) jaw).1 =
      (parse_teeth_numbers text jaw).1 := by
  obtain ⟨hf, hnets, hg, hb⟩ := recoveredTeeth_spec h
  rw [parse_recovered_eq h]
  rw [parse_teeth_numbers, if_neg (pyStrip_reconstruct_ne hnets hb)]
  simp only [recoveredTeeth_reconstruct hnets hb]

lemma parse_hard_failure {text : Str} {jaw : Option Jaw}
    (hex : ∃ seg ∈ splitOnChar ',' (effectiveText text),
      pyStrip seg ≠ [] ∧ pyInt (pyStrip seg) = none) :
    parse_teeth_numbers text jaw = ([], [Diag.invalidInput (effectiveText text)]) := by
  by_cases hempty : pyStrip text = []
  · exfalso
    have hsp := pyStrip_eq_nil_space hempty
    have hcm : ',' ∉ text := by
      intro hmem
      have h2 := hsp ',' hmem
      rw [show isPySpace ',' = false from rfl] at h2
      cases h2
    have heff : effectiveText text = text := by
      rw [effectiveText,
        recoveredTeeth_none_of_false (fireCond_false_of_short (by rw [hempty]; simp))]
    rcases hex with ⟨seg, hseg, hne, _⟩
    rw [heff, splitOnChar_of_not_mem hcm] at hseg
    rcases List.mem_singleton.mp hseg with rfl
    exact hne hempty
  · cases hr : recoveredTeeth text with
    | none =>
      have heff : effectiveText text = text := by rw [effectiveText, hr]
      rw [heff] at hex ⊢
      rw [parse_teeth_numbers, if_neg hempty]
      simp only [hr]
      have hfail := teethLoop_fail jaw (splitOnChar ',' text) [] [] hex
      simp only [parsePlain, hfail]
    | some ts =>
      exfalso
      obtain ⟨hf, hnets, hg, hb⟩ := recoveredTeeth_spec hr
      have heff : effectiveText text = reconstruct ts := by rw [effectiveText, hr]
      rw [heff] at hex
      rcases hex with ⟨seg, hseg, hsegne, hsegnone⟩
      rw [reconstruct_split hnets hb] at hseg
      rcases List.mem_map.mp hseg with ⟨t, ht, rfl⟩
      have hbt := hb t ht
      have hd := digits32 t (by omega) hbt.1
      rw [hd.2.2.2.2.2, hd.1] at hsegnone
      cases hsegnone

lemma parse_teeth_valid {text : Str} {jaw : Option Jaw}
    (hok : ∀ seg ∈ splitOnChar ',' text, pyStrip seg = [] ∨
      ∃ t : Nat, t < 33 ∧ 1 ≤ t ∧ pyStrip seg = natToStr t ∧ jawOkN jaw t) :
    parse_teeth_numbers text jaw =
      ((splitOnChar ',' text).filterMap (fun seg => pyInt (pyStrip seg)), []) := by
  by_cases hempty : pyStrip text = []
  · rw [parse_teeth_numbers, if_pos hempty]
    have hsp := pyStrip_eq_nil_space hempty
    have hcm : ',' ∉ text := by
      intro hmem
      have h2 := hsp ',' hmem
      rw [show isPySpace ',' = false from rfl] at h2
      cases h2
    rw [splitOnChar_of_not_mem hcm]
    have hnone : pyInt (pyStrip text) = none := by rw [hempty]; rfl
    simp [List.filterMap_cons, hnone]
  · have hrec : recoveredTeeth text = none := by
      by_cases hcm : ',' ∈ text
      · exact recoveredTeeth_none_of_false (fireCond_false_of_comma hcm)
      · rcases hok text (by rw [splitOnChar_of_not_mem hcm]; exact List.mem_singleton.mpr rfl)
          with h0 | ⟨t, ht33, ht1, hst, _⟩
        · exact absurd h0 hempty
        · apply recoveredTeeth_none_of_false
          apply fireCond_false_of_short
          rw [hst]
          have hlen := (digits32 t ht33 ht1).2.2.2.1
          omega
    rw [parse_teeth_numbers, if_neg hempty]
    simp only [hrec]
    have hloop := teethLoop_ok (splitOnChar ',' text) [] [] hok
    simp only [parsePlain, hloop]
    simp

/-! ### Lemmas about parse_bridges -/

lemma extractPair_nopair {text p : Str} (hh : '-' ∉ p) (hsp : ' ' ∉ p)
    (hlen : (splitOnChar ',' text).length ≠ 2) :
    extractPair text p = ExtractResult.nopair := by
  rw [extractPair, if_neg hh, if_neg hsp,
    if_neg (by rintro ⟨_, hl, _⟩; exact hlen hl)]

lemma bridgeLoop_nopair (text : Str) (jaw : Option Jaw) :
    ∀ (segs : List Str) (bs : List (Int × Int)) (errs : List Diag),
      (∀ seg ∈ segs, pyStrip seg = [] ∨
        extractPair text (pyStrip seg) = ExtractResult.nopair) →
      bridgeLoop text jaw segs bs errs = some (bs, errs) := by
  intro segs
  induction segs with
  | nil => intro bs errs _; rw [bridgeLoop]
  | cons seg rest ih =>
    intro bs errs hok
    have ihr := ih bs errs (fun s hs => hok s (List.mem_cons_of_mem _ hs))
    rcases hok seg (List.mem_cons_self _ _) with hnil | hnp
    · rw [bridgeLoop, if_pos hnil]
      exact ihr
    · by_cases hne : pyStrip seg = []
      · rw [bridgeLoop, if_pos hne]
        exact ihr
      · rw [bridgeLoop, if_neg hne]
        simp only [hnp]
        exact ihr

lemma bridgeLoop_pair_invalid {text seg : Str} {jaw : Option Jaw} {s e : Int}
    {d : Diag} (rest : List Str) (bs : List (Int × Int)) (errs : List Diag)
    (hne : pyStrip seg ≠ [])
    (hx : extractPair text (pyStrip seg) = ExtractResult.pair s e)
    (hs0 : s ≠ 0) (he0 : e ≠ 0) (hv : validatePair jaw s e = some d) :
    bridgeLoop text jaw (seg :: rest) bs errs =
      bridgeLoop text jaw rest bs (errs ++ [d]) := by
  rw [bridgeLoop, if_neg hne]
  simp only [hx]
  rw [if_pos ⟨hs0, he0⟩]
  simp only [hv]

lemma bridgeLoop_pair_valid {text seg : Str} {jaw : Option Jaw} {s e : Int}
    (rest : List Str) (bs : List (Int × Int)) (errs : List Diag)
    (hne : pyStrip seg ≠ [])
    (hx : extractPair text (pyStrip seg) = ExtractResult.pair s e)
    (hs0 : s ≠ 0) (he0 : e ≠ 0) (hv : validatePair jaw s e = none) :
    bridgeLoop text jaw (seg :: rest) bs errs =
      bridgeLoop text jaw rest (bs ++ [(s, e)]) errs := by
  rw [bridgeLoop, if_neg hne]
  simp only [hx]
  rw [if_pos ⟨hs0, he0⟩]
  simp only [hv]

lemma bridgeLoop_special {text seg : Str} {jaw : Option Jaw} {s e : Int}
    (rest : List Str) (bs : List (Int × Int)) (errs : List Diag)
    (hne : pyStrip seg ≠ [])
    (hx : extractPair text (pyStrip seg) = ExtractResult.special s e) :
    bridgeLoop text jaw (seg :: rest) bs errs = some ([(s, e)], errs) := by
  rw [bridgeLoop, if_neg hne]
  simp only [hx]

lemma bridgeLoop_pair_zero {text seg : Str} {jaw : Option Jaw} {s e : Int}
    (rest : List Str) (bs : List (Int × Int)) (errs : List Diag)
    (hne : pyStrip seg ≠ [])
    (hx : extractPair text (pyStrip seg) = ExtractResult.pair s e)
    (h0 : ¬ (s ≠ 0 ∧ e ≠ 0)) :
    bridgeLoop text jaw (seg :: rest) bs errs = bridgeLoop text jaw rest bs errs := by
  rw [bridgeLoop, if_neg hne]
  simp only [hx]
  rw [if_neg h0]

lemma validatePair_none_iff (jaw : Option Jaw) (s e : Int) :
    validatePair jaw s e = none ↔
      ((1 ≤ s ∧ s ≤ 32 ∧ 1 ≤ e ∧ e ≤ 32) ∧
        ((1 ≤ s ∧ s ≤ 16 ∧ 1 ≤ e ∧ e ≤ 16) ∨
          (17 ≤ s ∧ s ≤ 32 ∧ 17 ≤ e ∧ e ≤ 32)) ∧
        jawPairOk jaw s e) := by
  rcases jaw with _ | j
  · simp only [validatePair, jawPairOk]
    split_ifs with h1 h2 h3 h4 <;> simp_all <;> omega
  · cases j <;>
      · simp only [validatePair, jawPairOk]
        split_ifs with h1 h2 h3 h4 <;> simp_all <;> omega

lemma parse_bridges_detected {text : Str} {jaw : Option Jaw}
    (h : (parse_bridges text jaw).1 ≠ []) :
    (parse_bridges text jaw).2.getLast? =
      some (Diag.bridgesDetected (parse_bridges text jaw).1) := by
  by_cases hempty : pyStrip text = []
  · exfalso
    simp only [parse_bridges, if_pos hempty] at h
    exact h rfl
  · rcases hl : bridgeLoop text jaw (splitOnChar ',' text) [] [] with _ | ⟨bs, errs⟩
    · exfalso
      simp only [parse_bridges, if_neg hempty, hl] at h
      exact h rfl
    · simp only [parse_bridges, if_neg hempty, hl] at h ⊢
      rw [if_neg h]
      rw [List.getLast?_concat]

lemma parse_bridges_mt2 {text : Str} {jaw : Option Jaw} (hh : '-' ∉ text)
    (hlen : 2 < (splitOnChar ',' text).length)
    (hsp : ∀ seg ∈ splitOnChar ',' text, ' ' ∉ seg) :
    parse_bridges text jaw = ([], []) := by
  by_cases hempty : pyStrip text = []
  · rw [parse_bridges, if_pos hempty]
  · rw [parse_bridges, if_neg hempty]
    have hloop := bridgeLoop_nopair text jaw (splitOnChar ',' text) [] [] ?_
    · simp only [hloop]
      simp
    · intro seg hseg
      by_cases hsegnil : pyStrip seg = []
      · exact Or.inl hsegnil
      · refine Or.inr (extractPair_nopair ?_ ?_ (by omega))
        · intro hmem
          exact hh (mem_of_mem_splitOnPred hseg (mem_pyStrip hmem))
        · intro hmem
          exact hsp seg hseg (mem_pyStrip hmem)

/-! ### Sample field inputs -/

/-- All-empty raw fields for one jaw. -/
def emptyFields : RawJawFields := ⟨[], [], [], [], [], [], []⟩

/-- Raw fields whose only content is the bridge field "40,50". -/
def sampleBridgeFields : RawJawFields :=
  { emptyFields with bridge := "40,50".toList }

/-- Raw fields whose only content is the missing field "3". -/
def sampleTeethFields : RawJawFields :=
  { emptyFields with missing := "3".toList }

/-! ### Claim theorems -/

/-- C1 counterexample: the claimed invariant that every tooth number
appearing anywhere in the assembled structure lies in [1,32] is false:
with the maxillary bridge field "40,50" (parsed with its matching jaw
context), the unvalidated whole-field special case of parse_bridges puts
the out-of-range pair (40,50) into the assembled bridges sequence. -/
theorem C1_cex :
    ¬ (∀ p ∈ (dental_modifications sampleBridgeFields emptyFields).maxillary.bridges,
        1 ≤ p.1 ∧ p.1 ≤ 32 ∧ 1 ≤ p.2 ∧ p.2 ≤ 32) := by decide

/-- C1 (amended): for raw field strings parsed with their matching jaw
contexts and assembled into the chart structure, every tooth number in the
six per-tooth condition fields lies in [1,32] and in its jaw's half
(maxillary [1,16], mandibular [17,32]); the six condition fields are the
deduplicating sets of the corresponding parser outputs; and the bridges
sequence is passed through from the bridge parser unchanged, preserving
input order and duplicates (bridge endpoints themselves are NOT all
guaranteed in range, per the counterexample). -/
theorem C1_thm (maxF mandF : RawJawFields) :
    (∀ s ∈ condSets (dental_modifications maxF mandF).maxillary,
      ∀ t ∈ s, 1 ≤ t ∧ t ≤ 16) ∧
    (∀ s ∈ condSets (dental_modifications maxF mandF).mandibular,
      ∀ t ∈ s, 17 ≤ t ∧ t ≤ 32) ∧
    (∀ pr ∈ (condSets (dental_modifications maxF mandF).maxillary).zip (condFields maxF),
      ∀ t : Int, t ∈ pr.1 ↔ t ∈ (parse_teeth_numbers pr.2 (some Jaw.maxillary)).1) ∧
    (∀ pr ∈ (condSets (dental_modifications maxF mandF).mandibular).zip (condFields mandF),
      ∀ t : Int, t ∈ pr.1 ↔ t ∈ (parse_teeth_numbers pr.2 (some Jaw.mandibular)).1) ∧
    (dental_modifications maxF mandF).maxillary.bridges =
      (parse_bridges maxF.bridge (some Jaw.maxillary)).1 ∧
    (dental_modifications maxF mandF).mandibular.bridges =
      (parse_bridges mandF.bridge (some Jaw.mandibular)).1 := by
  refine ⟨?_, ?_, ?_, ?_, rfl, rfl⟩
  · intro s hs
    simp only [dental_modifications, buildJawMarks, condSets, List.mem_cons,
      List.not_mem_nil, or_false] at hs
    rcases hs with rfl | rfl | rfl | rfl | rfl | rfl <;>
      · intro t ht
        have hm := parse_teeth_mem (List.mem_toFinset.mp ht)
        exact ⟨hm.1, hm.2.2.1 rfl⟩
  · intro s hs
    simp only [dental_modifications, buildJawMarks, condSets, List.mem_cons,
      List.not_mem_nil, or_false] at hs
    rcases hs with rfl | rfl | rfl | rfl | rfl | rfl <;>
      · intro t ht
        have hm := parse_teeth_mem (List.mem_toFinset.mp ht)
        exact ⟨hm.2.2.2 rfl, hm.2.1⟩
  · intro pr hpr
    simp only [dental_modifications, buildJawMarks, condSets, condFields,
      List.zip_cons_cons, List.zip_nil_right, List.mem_cons,
      List.not_mem_nil, or_false] at hpr
    rcases hpr with rfl | rfl | rfl | rfl | rfl | rfl <;>
      exact fun t => List.mem_toFinset
  · intro pr hpr
    simp only [dental_modifications, buildJawMarks, condSets, condFields,
      List.zip_cons_cons, List.zip_nil_right, List.mem_cons,
      List.not_mem_nil, or_false] at hpr
    rcases hpr with rfl | rfl | rfl | rfl | rfl | rfl <;>
      exact fun t => List.mem_toFinset

/-- C1 witness: the amended invariant applied to concrete fields with
maxillary missing = "3" puts tooth 3 in the maxillary half. -/
theorem C1_wit : 1 ≤ (3 : Int) ∧ (3 : Int) ≤ 16 :=
  (C1_thm sampleTeethFields emptyFields).1
    (dental_modifications sampleTeethFields emptyFields).maxillary.missing
    (List.mem_cons_self _ _) 3 (by decide)

/-- pyInt of the empty string is a ValueError. -/
lemma pyInt_nil : pyInt ([] : Str) = none := rfl

/-- C2 counterexample: the claim that every extracted candidate pair —
including the whole-field two-bare-number special case — is validated
before acceptance is false: parse_bridges("40,50", maxillary) accepts
the pair (40,50) although endpoint 40 is outside [1,32] and outside the
maxillary half, and emits no validation-failure diagnostic (only the
acceptance summary). -/
theorem C2_cex :
    (parse_bridges ("40,50".toList) (some Jaw.maxillary)).1 = [(40, 50)] ∧
    ¬ ((40 : Int) ≤ 32) ∧
    (parse_bridges ("40,50".toList) (some Jaw.maxillary)).2 =
      [Diag.bridgesDetected [(40, 50)]] := by decide

/-- C2 (amended): pairs extracted by the hyphen format or the two-token
whitespace format with both endpoints nonzero are validated before
acceptance — both endpoints in [1,32], both in the same jaw half, and
(when a jaw context is supplied) both in that half — each validation
failure appending exactly one diagnostic and dropping that pair while
remaining pairs are still processed; but a pair produced by the
whole-field two-bare-number special case is accepted without any
validation, and a pair with a zero endpoint is dropped silently with no
diagnostic. -/
theorem C2_thm :
    (∀ (text seg : Str) (rest : List Str) (bs : List (Int × Int))
      (errs : List Diag) (jaw : Option Jaw) (s e : Int) (d : Diag),
      pyStrip seg ≠ [] → extractPair text (pyStrip seg) = ExtractResult.pair s e →
      s ≠ 0 → e ≠ 0 → validatePair jaw s e = some d →
      bridgeLoop text jaw (seg :: rest) bs errs =
        bridgeLoop text jaw rest bs (errs ++ [d])) ∧
    (∀ (text seg : Str) (rest : List Str) (bs : List (Int × Int))
      (errs : List Diag) (jaw : Option Jaw) (s e : Int),
      pyStrip seg ≠ [] → extractPair text (pyStrip seg) = ExtractResult.pair s e →
      s ≠ 0 → e ≠ 0 → validatePair jaw s e = none →
      bridgeLoop text jaw (seg :: rest) bs errs =
        bridgeLoop text jaw rest (bs ++ [(s, e)]) errs) ∧
    (∀ (jaw : Option Jaw) (s e : Int),
      validatePair jaw s e = none ↔
        ((1 ≤ s ∧ s ≤ 32 ∧ 1 ≤ e ∧ e ≤ 32) ∧
          ((1 ≤ s ∧ s ≤ 16 ∧ 1 ≤ e ∧ e ≤ 16) ∨
            (17 ≤ s ∧ s ≤ 32 ∧ 17 ≤ e ∧ e ≤ 32)) ∧
          jawPairOk jaw s e)) ∧
    (∀ (text seg : Str) (rest : List Str) (bs : List (Int × Int))
      (errs : List Diag) (jaw : Option Jaw) (s e : Int),
      pyStrip seg ≠ [] → extractPair text (pyStrip seg) = ExtractResult.special s e →
      bridgeLoop text jaw (seg :: rest) bs errs = some ([(s, e)], errs)) ∧
    (∀ (text seg : Str) (rest : List Str) (bs : List (Int × Int))
      (errs : List Diag) (jaw : Option Jaw) (s e : Int),
      pyStrip seg ≠ [] → extractPair text (pyStrip seg) = ExtractResult.pair s e →
      ¬ (s ≠ 0 ∧ e ≠ 0) →
      bridgeLoop text jaw (seg :: rest) bs errs = bridgeLoop text jaw rest bs errs) := by
  refine ⟨?_, ?_, validatePair_none_iff, ?_, ?_⟩
  · intro text seg rest bs errs jaw s e d hne hx hs0 he0 hv
    exact bridgeLoop_pair_invalid rest bs errs hne hx hs0 he0 hv
  · intro text seg rest bs errs jaw s e hne hx hs0 he0 hv
    exact bridgeLoop_pair_valid rest bs errs hne hx hs0 he0 hv
  · intro text seg rest bs errs jaw s e hne hx
    exact bridgeLoop_special rest bs errs hne hx
  · intro text seg rest bs errs jaw s e hne hx h0
    exact bridgeLoop_pair_zero rest bs errs hne hx h0

/-- C2 witness: the validation-failure step applied to the concrete
out-of-range hyphen pair "40-1": one range diagnostic is appended and the
pair is dropped. -/
theorem C2_wit :
    extractPair ("40-1".toList) (pyStrip ("40-1".toList)) = ExtractResult.pair 40 1 ∧
    validatePair none 40 1 = some (Diag.bridgeRangeErr 40 1) ∧
    bridgeLoop ("40-1".toList) none (["40-1".toList]) [] [] =
      bridgeLoop ("40-1".toList) none [] [] ([] ++ [Diag.bridgeRangeErr 40 1]) :=
  ⟨by decide, by decide,
    C2_thm.1 ("40-1".toList) ("40-1".toList) [] [] [] none 40 1
      (Diag.bridgeRangeErr 40 1) (by decide) (by decide) (by decide) (by decide)
      (by decide)⟩

/-- C3: for every input text that is a comma-separated list of canonically
written integers, each in [1,32] and each in the supplied jaw context's
half, parse_teeth_numbers returns exactly the listed integers in input
order with no diagnostics, skipping empty segments; in particular
parse_teeth_numbers("1,4,7", maxillary) = [1,4,7] with no diagnostics. -/
theorem C3_thm :
    (∀ (text : Str) (jaw : Option Jaw),
      (∀ seg ∈ splitOnChar ',' text, pyStrip seg = [] ∨
        ∃ t : Nat, t < 33 ∧ 1 ≤ t ∧ pyStrip seg = natToStr t ∧ jawOkN jaw t) →
      parse_teeth_numbers text jaw =
        ((splitOnChar ',' text).filterMap (fun seg => pyInt (pyStrip seg)), [])) ∧
    parse_teeth_numbers ("1,4,7".toList) (some Jaw.maxillary) = ([1, 4, 7], []) :=
  ⟨fun _ _ hok => parse_teeth_valid hok, by decide⟩

/-- C3 witness: the general statement applied to the concrete valid list
"1,4,7" in the maxillary context. -/
theorem C3_wit :
    parse_teeth_numbers ("1,4,7".toList) (some Jaw.maxillary) =
      ((splitOnChar ',' ("1,4,7".toList)).filterMap (fun seg => pyInt (pyStrip seg)), []) := by
  refine C3_thm.1 ("1,4,7".toList) (some Jaw.maxillary) ?_
  intro seg hseg
  rw [show splitOnChar ',' ("1,4,7".toList) = [['1'], ['4'], ['7']] from by decide] at hseg
  simp only [List.mem_cons, List.not_mem_nil, or_false] at hseg
  rcases hseg with rfl | rfl | rfl
  · exact Or.inr ⟨1, by decide, by decide, by decide, by decide⟩
  · exact Or.inr ⟨4, by decide, by decide, by decide, by decide⟩
  · exact Or.inr ⟨7, by decide, by decide, by decide, by decide⟩

/-- C4: the delimiter-recovery heuristic fires exactly when the trimmed
text has no comma, is longer than 2 characters, and is all digits; the
greedy scan emits a tooth as soon as the accumulated digits form a number
in [1,32] (shortest valid prefix first) and abandons when the accumulator
exceeds 2 digits without forming one; on success parsing continues with
the comma-joined reconstruction behind one informational diagnostic; in
particular parse_teeth_numbers("147", Unconstrained) = [1,4,7] with one
info diagnostic. -/
theorem C4_thm :
    (∀ text : Str, fireCond text = true ↔
      (2 < (pyStrip text).length ∧ ',' ∉ pyStrip text ∧
        (pyStrip text).all Char.isDigit = true)) ∧
    (∀ (cs cur : Str) (acc : List Nat) (c : Char),
      1 ≤ digitsVal (cur ++ [c]) ∧ digitsVal (cur ++ [c]) ≤ 32 →
      greedyScan (c :: cs) cur acc = greedyScan cs [] (acc ++ [digitsVal (cur ++ [c])])) ∧
    (∀ (cs cur : Str) (acc : List Nat) (c : Char),
      ¬ (1 ≤ digitsVal (cur ++ [c]) ∧ digitsVal (cur ++ [c]) ≤ 32) →
      2 < (cur ++ [c]).length →
      greedyScan (c :: cs) cur acc = ([], cur ++ [c])) ∧
    (∀ (text : Str) (jaw : Option Jaw) (ts : List Nat),
      recoveredTeeth text = some ts →
      parse_teeth_numbers text jaw =
        ((parsePlain (reconstruct ts) jaw).1,
          Diag.recoveryInfo text ts :: (parsePlain (reconstruct ts) jaw).2)) ∧
    parse_teeth_numbers ("147".toList) none =
      ([1, 4, 7], [Diag.recoveryInfo ("147".toList) [1, 4, 7]]) := by
  refine ⟨fireCond_iff, ?_, ?_, fun _ _ _ h => parse_recovered_eq h, by decide⟩
  · intro cs cur acc c h
    rw [greedyScan, if_pos h]
  · intro cs cur acc c h1 h2
    rw [greedyScan, if_neg h1, if_pos h2]

/-- C4 witness: the successful-recovery branch applied to "147". -/
theorem C4_wit :
    recoveredTeeth ("147".toList) = some [1, 4, 7] ∧
    parse_teeth_numbers ("147".toList) none =
      ((parsePlain (reconstruct [1, 4, 7]) none).1,
        Diag.recoveryInfo ("147".toList) [1, 4, 7] ::
          (parsePlain (reconstruct [1, 4, 7]) none).2) :=
  ⟨by decide, C4_thm.2.2.2.1 ("147".toList) none [1, 4, 7] (by decide)⟩

/-- C5: whenever some nonempty comma segment of the effective text (the
recovery rewrite when it fired, the original text otherwise) fails to
parse as an integer, the whole field fails atomically: empty result and
exactly one diagnostic naming the invalid text. -/
theorem C5_thm (text : Str) (jaw : Option Jaw)
    (hex : ∃ seg ∈ splitOnChar ',' (effectiveText text),
      pyStrip seg ≠ [] ∧ pyInt (pyStrip seg) = none) :
    parse_teeth_numbers text jaw = ([], [Diag.invalidInput (effectiveText text)]) :=
  parse_hard_failure hex

/-- C5 witness: "1,x" has a non-integer segment, so the whole field is
discarded (the valid leading 1 included) with one diagnostic. -/
theorem C5_wit :
    (∃ seg ∈ splitOnChar ',' (effectiveText ("1,x".toList)),
      pyStrip seg ≠ [] ∧ pyInt (pyStrip seg) = none) ∧
    parse_teeth_numbers ("1,x".toList) none =
      ([], [Diag.invalidInput (effectiveText ("1,x".toList))]) :=
  ⟨by decide, C5_thm ("1,x".toList) none (by decide)⟩

/-- C6: an integer segment outside [1,32] is dropped with one per-item
diagnostic and the loop continues with the remaining segments; an integer
in [1,32] but outside the asserted jaw half is dropped with one per-item
diagnostic naming the violated half; in particular "33" unconstrained and
"17" maxillary each give an empty result with exactly one diagnostic. -/
theorem C6_thm :
    (∀ (jaw : Option Jaw) (segs : List Str) (res : List Int) (errs : List Diag)
      (seg : Str) (t : Int),
      pyInt (pyStrip seg) = some t → ¬ (1 ≤ t ∧ t ≤ 32) →
      teethLoop jaw (seg :: segs) res errs =
        teethLoop jaw segs res (errs ++ [Diag.rangeErr t])) ∧
    (∀ (segs : List Str) (res : List Int) (errs : List Diag) (seg : Str) (t : Int),
      pyInt (pyStrip seg) = some t → 1 ≤ t → t ≤ 32 → ¬ (1 ≤ t ∧ t ≤ 16) →
      teethLoop (some Jaw.maxillary) (seg :: segs) res errs =
        teethLoop (some Jaw.maxillary) segs res (errs ++ [Diag.jawMaxErr t])) ∧
    (∀ (segs : List Str) (res : List Int) (errs : List Diag) (seg : Str) (t : Int),
      pyInt (pyStrip seg) = some t → 1 ≤ t → t ≤ 32 → ¬ (17 ≤ t ∧ t ≤ 32) →
      teethLoop (some Jaw.mandibular) (seg :: segs) res errs =
        teethLoop (some Jaw.mandibular) segs res (errs ++ [Diag.jawMandErr t])) ∧
    parse_teeth_numbers ("33".toList) none = ([], [Diag.rangeErr 33]) ∧
    parse_teeth_numbers ("17".toList) (some Jaw.maxillary) =
      ([], [Diag.jawMaxErr 17]) := by
  refine ⟨?_, ?_, ?_, by decide, by decide⟩
  · intro jaw segs res errs seg t hpi hout
    have hne : pyStrip seg ≠ [] := by
      intro h0
      rw [h0, pyInt_nil] at hpi
      exact Option.noConfusion hpi
    rw [teethLoop, if_neg hne]
    simp only [hpi]
    rw [if_pos hout]
  · intro segs res errs seg t hpi h1 h32 hmis
    have hne : pyStrip seg ≠ [] := by
      intro h0
      rw [h0, pyInt_nil] at hpi
      exact Option.noConfusion hpi
    rw [teethLoop, if_neg hne]
    simp only [hpi]
    rw [if_neg (not_not_intro ⟨h1, h32⟩), if_pos ⟨by simp, hmis⟩]
  · intro segs res errs seg t hpi h1 h32 hmis
    have hne : pyStrip seg ≠ [] := by
      intro h0
      rw [h0, pyInt_nil] at hpi
      exact Option.noConfusion hpi
    rw [teethLoop, if_neg hne]
    simp only [hpi]
    rw [if_neg (not_not_intro ⟨h1, h32⟩),
      if_neg (by rintro ⟨hj, _⟩; cases hj), if_pos ⟨by simp, hmis⟩]

/-- C6 witness: the range-drop step applied to the concrete segment "33". -/
theorem C6_wit :
    pyInt (pyStrip ("33".toList)) = some 33 ∧
    teethLoop none (["33".toList]) [] [] =
      teethLoop none [] [] ([] ++ [Diag.rangeErr 33]) :=
  ⟨by decide,
    C6_thm.1 none [] [] [] ("33".toList) 33 (by decide) (by decide)⟩

/-- C7: parse_bridges("10-12", maxillary) = [(10,12)];
parse_bridges("10,12", maxillary) = [(10,12)] via the whole-field special
case; parse_bridges("10-12,14-16", maxillary) = [(10,12),(14,16)],
endpoint order as entered; and whenever at least one bridge is accepted,
the diagnostics end with one informational summary of all accepted
spans. -/
theorem C7_thm :
    (parse_bridges ("10-12".toList) (some Jaw.maxillary)).1 = [(10, 12)] ∧
    (parse_bridges ("10,12".toList) (some Jaw.maxillary)).1 = [(10, 12)] ∧
    (parse_bridges ("10-12,14-16".toList) (some Jaw.maxillary)).1 =
      [(10, 12), (14, 16)] ∧
    (∀ (text : Str) (jaw : Option Jaw), (parse_bridges text jaw).1 ≠ [] →
      (parse_bridges text jaw).2.getLast? =
        some (Diag.bridgesDetected (parse_bridges text jaw).1)) :=
  ⟨by decide, by decide, by decide, fun _ _ h => parse_bridges_detected h⟩

/-- C7 witness: the summary-diagnostic statement applied to "10-12". -/
theorem C7_wit :
    (parse_bridges ("10-12".toList) (some Jaw.maxillary)).1 ≠ [] ∧
    (parse_bridges ("10-12".toList) (some Jaw.maxillary)).2.getLast? =
      some (Diag.bridgesDetected
        ((parse_bridges ("10-12".toList) (some Jaw.maxillary)).1)) :=
  ⟨by decide, C7_thm.2.2.2 ("10-12".toList) (some Jaw.maxillary) (by decide)⟩

/-- C8: a bridge field that splits into more than two comma segments, with
no hyphen anywhere and no space in any segment (in particular a list of
more than two bare integers), produces no bridges at all. -/
theorem C8_thm (text : Str) (jaw : Option Jaw)
    (hh : '-' ∉ text) (hlen : 2 < (splitOnChar ',' text).length)
    (hsp : ∀ seg ∈ splitOnChar ',' text, ' ' ∉ seg)
    (hdig : ∀ seg ∈ splitOnChar ',' text,
      pyStrip seg ≠ [] ∧ (pyStrip seg).all Char.isDigit = true) :
    (parse_bridges text jaw).1 = [] := by
  rw [parse_bridges_mt2 hh hlen hsp]

/-- C8 witness: the statement applied to the concrete field "10,12,14". -/
theorem C8_wit :
    2 < (splitOnChar ',' ("10,12,14".toList)).length ∧
    (parse_bridges ("10,12,14".toList) none).1 = [] :=
  ⟨by decide,
    C8_thm ("10,12,14".toList) none (by decide) (by decide) (by decide) (by decide)⟩

/-- C9: recovery is a fixed point — when the delimiter-recovery heuristic
succeeds with teeth ts, parsing the comma-joined reconstruction of ts
under the same jaw context returns the same result sequence as the
original recovered parse. -/
theorem C9_thm (text : Str) (jaw : Option Jaw) (ts : List Nat)
    (h : recoveredTeeth text = some ts) :
    (parse_teeth_numbers (reconstruct ts) jaw).1 =
      (parse_teeth_numbers text jaw).1 :=
  parse_recovery_fixed h

/-- C9 witness: the fixed-point property at the concrete recovery of
"147" into [1,4,7]. -/
theorem C9_wit :
    recoveredTeeth ("147".toList) = some [1, 4, 7] ∧
    (parse_teeth_numbers (reconstruct [1, 4, 7]) none).1 =
      (parse_teeth_numbers ("147".toList) none).1 :=
  ⟨by decide, C9_thm ("147".toList) none [1, 4, 7] (by decide)⟩

/-- C10: when the recovery scan finishes with unconsumed digits in the
accumulator (which never exceeded 2 digits, e.g. "120" leaves "0"), the
heuristic is abandoned and the original text is parsed as a single
integer segment under normal validation. -/
theorem C10_thm :
    (∀ (text : Str) (jaw : Option Jaw), fireCond text = true →
      (greedyScan (pyStrip text) [] []).2 ≠ [] →
      recoveredTeeth text = none ∧ splitOnChar ',' text = [text] ∧
        parse_teeth_numbers text jaw = parsePlain text jaw) ∧
    greedyScan ("120".toList) [] [] = ([1, 2], ['0']) ∧
    parse_teeth_numbers ("120".toList) none = ([], [Diag.rangeErr 120]) :=
  ⟨fun _ _ hf hc => parse_no_recovery hf hc, by decide, by decide⟩

/-- C10 witness: the abandonment statement applied to "120". -/
theorem C10_wit :
    fireCond ("120".toList) = true ∧
    (greedyScan (pyStrip ("120".toList)) [] []).2 ≠ [] ∧
    (recoveredTeeth ("120".toList) = none ∧
      splitOnChar ',' ("120".toList) = [("120".toList)] ∧
      parse_teeth_numbers ("120".toList) none = parsePlain ("120".toList) none) :=
  ⟨by decide, by decide, C10_thm.1 ("120".toList) none (by decide) (by decide)⟩
